import Mathlib

/-!
Verification of the partial I/O and index-cache engine of DictDataBase
(`src/dictdatabase/io_unsafe.py`), as a shallow embedding.

Modelling conventions:
* Document text, byte strings and hash digests are `List Char`; Python's
  character offsets become list indices.  `data[a:b]` is `slice`, `data[:i]`
  is `List.take i`, `data[i:]` is `List.drop i`.
* The filesystem state of one database name is `Storage`: the optional
  content of its plain `.json` file, of its compressed `.ddb` file and of its
  sidecar `.index` file.  The index file stores the mapping itself (the
  orjson round trip through bytes is transparent).
* External library functions (orjson/json serialisation and decoding,
  sha256, zlib) are fields of `Ext`; theorems that need the zlib round trip
  assume `decompress (compress s) = s` explicitly.
* Functions raising exceptions return `Except DBError`; `partial_read`
  returns its result together with the final `Storage`, because the code
  writes the index file before it can still raise a decode error.
* `utils.find_outermost_json_key_index`, `utils.seek_index_through_value`,
  `utils.detect_indentation_in_json_string` and `utils.db_paths` are code of
  the repository that is not under `src/`; they are modelled from the spec
  (each carries a doc comment saying so).
-/

namespace DictDB

/-- The closed algebraic value type of decoded JSON values (spec §9: the
engine treats decoded values generically). -/
inductive JVal where
  | null : JVal
  | bool (b : Bool) : JVal
  | num (n : Int) : JVal
  | str (s : List Char) : JVal
  | arr (elems : List JVal) : JVal
  | obj (fields : List (List Char × JVal)) : JVal

/-- One index-cache entry: the 5-element array
`[start_index, end_index, indent_level, indent_with, value_hash]` stored per
key by `write_index_file` (io_unsafe.py line 84). -/
structure IndexEntry where
  start_index : Nat
  end_index : Nat
  indent_level : Nat
  indent_with : List Char
  value_hash : List Char
deriving DecidableEq

/-- The index-cache mapping of one database: key to entry, insertion ordered
(a Python dict). -/
abbrev IndexData := List (List Char × IndexEntry)

/-- `mapping.get(key, None)` on the index mapping. -/
def idxGet (d : IndexData) (k : List Char) : Option IndexEntry :=
  match d with
  | [] => none
  | (k', e) :: rest => if k' = k then some e else idxGet rest k

/-- `mapping[key] = entry` on the index mapping: overwrite in place or append
(Python dict insertion semantics). -/
def idxSet (d : IndexData) (k : List Char) (e : IndexEntry) : IndexData :=
  match d with
  | [] => [(k, e)]
  | (k', e') :: rest => if k' = k then (k, e) :: rest else (k', e') :: idxSet rest k e

/-- The filesystem state of one database name.
`jsonFile` is the content of `{name}.json` when that file exists, `ddbFile`
the (compressed) content of `{name}.ddb`, `indexFile` the sidecar index
mapping.  `utils.db_paths` (not under `src/`) is modelled from the spec §6:
it resolves a name to the two candidate paths and their existence, which here
is just `Option.isSome` of the two file fields. -/
structure Storage where
  jsonFile : Option (List Char)
  ddbFile : Option (List Char)
  indexFile : Option IndexData
deriving DecidableEq

/-- The exceptions the engine raises: FileExistsError ("DB Inconsistency"),
FileNotFoundError, KeyError, and a decode failure from `orjson.loads`. -/
inductive DBError where
  | inconsistent : DBError
  | notFound : DBError
  | keyNotFound : DBError
  | decodeError : DBError
deriving DecidableEq

/-- The external collaborators (spec §1: excluded from the core, specified at
their interface): the two JSON serialisers, the decoder, sha256 and zlib.
Bytes and hex digests are `List Char`. -/
structure Ext where
  orjson_dumps : Bool → Bool → JVal → List Char
  json_dumps : Option Nat → Bool → JVal → List Char
  orjson_loads : List Char → Option JVal
  sha256 : List Char → List Char
  compress : List Char → List Char
  decompress : List Char → List Char

/-- The process configuration consumed by the write paths (spec §6):
`use_compression`, `use_orjson`, `indent` (an int or None, passed raw to
`json.dumps` and used as a truth value for the orjson option), `sort_keys`. -/
structure Config where
  use_compression : Bool
  use_orjson : Bool
  indent : Option Nat
  sort_keys : Bool

/-- Python truthiness of `config.indent` (an int or None). -/
def indentTruthy : Option Nat → Bool
  | none => false
  | some n => decide (n ≠ 0)

/-- Python's `data[a:b]` for nonnegative clamped indices. -/
def slice (data : List Char) (a b : Nat) : List Char :=
  (data.drop a).take (b - a)

/-- `read_file` (io_unsafe.py lines 36-59): FileExistsError when both
representations exist, FileNotFoundError when neither, else the plain text,
decompressing the `.ddb` content when that is the file that exists.  The
`as_bytes` flag is invisible here because bytes and text coincide. -/
def read_file (E : Ext) (st : Storage) : Except DBError (List Char) :=
  match st.jsonFile, st.ddbFile with
  | some _, some _ => .error .inconsistent
  | none, none => .error .notFound
  | some j, none => .ok j
  | none, some d => .ok (E.decompress d)

/-- `read_index_file` (lines 73-79): the sidecar mapping, `{}` when the file
does not exist (the `mkdir` of the parent directory has no observable effect
here). -/
def read_index_file (st : Storage) : IndexData :=
  st.indexFile.getD []

/-- Modelled from the spec: the scanning loop of
`utils.find_outermost_json_key_index`, which is not under `src/`.  Spec §4.1:
scan for the token, "skipping any match that lies inside a string literal
(tracked via a quote/escape-aware state)", returning "the *first* textual
match satisfying the quote-awareness rule". -/
def findKeyGo (json_key : List Char) : List Char → Nat → Bool → Bool → Option Nat
  | [], _, _, _ => none
  | c :: rest, i, inStr, esc =>
      if !inStr && json_key.isPrefixOf (c :: rest) then some i
      else if inStr && esc then findKeyGo json_key rest (i + 1) inStr false
      else if inStr && c = '\\' then findKeyGo json_key rest (i + 1) inStr true
      else if c = '"' then findKeyGo json_key rest (i + 1) (!inStr) false
      else findKeyGo json_key rest (i + 1) inStr false

/-- Modelled from the spec: `utils.find_outermost_json_key_index(data,
json_key)` (not under `src/`), spec §4.1 `locate_key`.  `none` models the
`-1` "not found" return. -/
def find_outermost_json_key_index (data json_key : List Char) : Option Nat :=
  findKeyGo json_key data 0 false false

/-- The first significant (non-whitespace) character of the remaining text. -/
def nextSignificant : List Char → Option Char
  | [] => none
  | c :: rest =>
      if c = ' ' || c = '\t' || c = '\n' || c = '\r' then nextSignificant rest
      else some c

/-- Spec §4.1: a value ends where "the next significant character is a
delimiter (`,`, `}`, `]`, or end of text)". -/
def isValueDelimiter : Option Char → Bool
  | none => true
  | some c => c = ',' || c = '}' || c = ']'

/-- Modelled from the spec: the scanning loop of
`utils.seek_index_through_value`, which is not under `src/`.  Spec §4.1:
"scans forward character by character maintaining: a bracket-depth counter
(incremented on `{`/`[`, decremented on `}`/`]`), a flag for inside string
literal toggled on unescaped `"`, and escape-state for `\`.  The value ends
at the first position where bracket-depth returns to zero AND the next
significant character is a delimiter while not inside a string." -/
def seekGo : List Char → Nat → Nat → Bool → Bool → Nat
  | [], i, _, _, _ => i
  | c :: rest, i, depth, inStr, esc =>
      if !inStr && depth = 0 && isValueDelimiter (nextSignificant (c :: rest)) then i
      else if inStr then
        if esc then seekGo rest (i + 1) depth inStr false
        else if c = '\\' then seekGo rest (i + 1) depth inStr true
        else if c = '"' then seekGo rest (i + 1) depth false false
        else seekGo rest (i + 1) depth inStr false
      else if c = '"' then seekGo rest (i + 1) depth true false
      else if c = '{' || c = '[' then seekGo rest (i + 1) (depth + 1) false false
      else if c = '}' || c = ']' then seekGo rest (i + 1) (depth - 1) false false
      else seekGo rest (i + 1) depth false false

/-- Modelled from the spec: `utils.seek_index_through_value(data, index)`
(not under `src/`), spec §4.1 `seek_value_end`. -/
def seek_index_through_value (data : List Char) (index : Nat) : Nat :=
  seekGo (data.drop index) index 0 false false

/-- The characters after the last newline of `l` (the key's line so far). -/
def afterLastNewline (l : List Char) : List Char :=
  l.foldl (fun acc c => if c = '\n' then [] else acc ++ [c]) []

/-- Modelled from the spec: `utils.detect_indentation_in_json_string(data,
index)` (not under `src/`), spec §4.1 `detect_indentation`: walk backward
from the key to the start of its line and count the leading whitespace
characters; the indent unit is the repeated whitespace character (a tab or a
space) and the level its count.  A line with no leading whitespace gives
`(0, "")`. -/
def detect_indentation_in_json_string (data : List Char) (index : Nat) :
    Nat × List Char :=
  let ws := (afterLastNewline (data.take index)).takeWhile fun c => c = ' ' || c = '\t'
  match ws with
  | [] => (0, [])
  | c :: _ => (ws.length, [c])

/-- `json_key = f"\"{key}\":"` (line 116). -/
def jsonKeyOf (key : List Char) : List Char :=
  '"' :: (key ++ ['"', ':'])

/-- `PartialDict` (lines 14-19).  The source field `prefix` is a Lean keyword
and is called `pre` here. -/
structure PartialDict where
  pre : List Char
  key : List Char
  value : JVal
  suffix : List Char

/-- `PartialFileHandle` (lines 22-28).  `db_name` is dropped: a `Storage`
already is the state of one database name. -/
structure PartialFileHandle where
  partial_dict : PartialDict
  indent_level : Nat
  indent_with : List Char
  index_data : IndexData

/-- What `partial_read` returns: a decoded value, or a handle. -/
inductive PRResult where
  | val (v : JVal) : PRResult
  | handle (h : PartialFileHandle) : PRResult

/-- `json_key_end_index = json_key_start_index + len(json_key)` (line 118). -/
def scan_key_end (key : List Char) (ki : Nat) : Nat :=
  ki + (jsonKeyOf key).length

/-- `value_start_index` (lines 124-125): skip exactly one optional space
after the colon. -/
def scan_value_start (data key : List Char) (ki : Nat) : Nat :=
  scan_key_end key ki + (if data[scan_key_end key ki]? = some ' ' then 1 else 0)

/-- `value_end_index` (line 126). -/
def scan_value_end (data key : List Char) (ki : Nat) : Nat :=
  seek_index_through_value data (scan_value_start data key ki)

/-- `partial_str = data[value_start_index:value_end_index]` (line 129). -/
def scan_slice (data key : List Char) (ki : Nat) : List Char :=
  slice data (scan_value_start data key ki) (scan_value_end data key ki)

/-- The fresh index entry the full scan stores (lines 132-141). -/
def scan_entry (E : Ext) (data key : List Char) (ki : Nat) : IndexEntry :=
  { start_index := scan_value_start data key ki
    end_index := scan_value_end data key ki
    indent_level := (detect_indentation_in_json_string data ki).1
    indent_with := (detect_indentation_in_json_string data ki).2
    value_hash := E.sha256 (scan_slice data key ki) }

/-- The storage after `write_index_file` on the full-scan path persists the
refreshed mapping (lines 82-86, 132-141). -/
def scan_store (E : Ext) (st : Storage) (index_data : IndexData)
    (data key : List Char) (ki : Nat) : Storage :=
  { st with indexFile := some (idxSet index_data key (scan_entry E data key ki)) }

/-- The handle the full-scan path constructs (lines 147-148). -/
def scan_handle (E : Ext) (data : List Char) (index_data : IndexData)
    (key : List Char) (ki : Nat) (pv : JVal) : PartialFileHandle :=
  { partial_dict :=
      { pre := data.take (scan_value_start data key ki)
        key := key
        value := pv
        suffix := data.drop (scan_value_end data key ki) }
    indent_level := (detect_indentation_in_json_string data ki).1
    indent_with := (detect_indentation_in_json_string data ki).2
    index_data := idxSet index_data key (scan_entry E data key ki) }

/-- The handle the index-hit path constructs (lines 112-113). -/
def hit_handle (data : List Char) (index_data : IndexData) (key : List Char)
    (e : IndexEntry) (pv : JVal) : PartialFileHandle :=
  { partial_dict :=
      { pre := data.take e.start_index
        key := key
        value := pv
        suffix := data.drop e.end_index }
    indent_level := e.indent_level
    indent_with := e.indent_with
    index_data := index_data }

/-- The full-scan path of `partial_read` (lines 115-148): locate the key
(KeyError when absent), bound its value, persist a refreshed index entry, and
only then decode the located slice. -/
def partial_read_scan (E : Ext) (st : Storage) (data : List Char)
    (index_data : IndexData) (key : List Char) (as_handle : Bool) :
    Except DBError PRResult × Storage :=
  match find_outermost_json_key_index data (jsonKeyOf key) with
  | none => (.error .keyNotFound, st)
  | some ki =>
      match E.orjson_loads (scan_slice data key ki) with
      | none => (.error .decodeError, scan_store E st index_data data key ki)
      | some pv =>
          if !as_handle then (.ok (.val pv), scan_store E st index_data data key ki)
          else (.ok (.handle (scan_handle E data index_data key ki pv)),
                scan_store E st index_data data key ki)

/-- `partial_read` (lines 89-148): read the document, look the key up in the
index mapping; on an entry whose stored hash matches the hash of the current
slice at its offsets, decode that slice (the cache hit); otherwise fall
through to the full scan.  The second component is the final filesystem
state. -/
def partial_read (E : Ext) (st : Storage) (key : List Char) (as_handle : Bool) :
    Except DBError PRResult × Storage :=
  match read_file E st with
  | .error err => (.error err, st)
  | .ok data =>
      match idxGet (read_index_file st) key with
      | some e =>
          if e.value_hash = E.sha256 (slice data e.start_index e.end_index) then
            match E.orjson_loads (slice data e.start_index e.end_index) with
            | none => (.error .decodeError, st)
            | some pv =>
                if !as_handle then (.ok (.val pv), st)
                else (.ok (.handle (hit_handle data (read_index_file st) key e pv)), st)
          else partial_read_scan E st data (read_index_file st) key as_handle
      | none => partial_read_scan E st data (read_index_file st) key as_handle

/-- The guard of the cache-hit branch: the index holds an entry for the key
whose stored hash matches the hash of the current slice at its offsets. -/
def takes_cache_hit_path (E : Ext) (data : List Char) (index_data : IndexData)
    (key : List Char) : Bool :=
  match idxGet index_data key with
  | none => false
  | some e => decide (e.value_hash = E.sha256 (slice data e.start_index e.end_index))

/-- Whether a `partial_read` on `st` would take the cache-hit branch. -/
def cache_hit_on (E : Ext) (st : Storage) (key : List Char) : Bool :=
  match read_file E st with
  | .error _ => false
  | .ok data => takes_cache_hit_path E data (read_index_file st) key

/-- `write_dump` (lines 157-180): pick the target representation from the
configuration, delete the other one when it exists, compress when required,
and write. -/
def write_dump (E : Ext) (cfg : Config) (st : Storage) (dump : List Char) : Storage :=
  if cfg.use_compression then
    { st with jsonFile := none, ddbFile := some (E.compress dump) }
  else
    { st with jsonFile := some dump, ddbFile := none }

/-- The serialisation `write` computes (lines 188-193): orjson with the
OPT_INDENT_2 / OPT_SORT_KEYS options when `config.use_orjson`, else
`json.dumps(db, indent=config.indent, sort_keys=config.sort_keys)`. -/
def write_db_dump (E : Ext) (cfg : Config) (db : JVal) : List Char :=
  if cfg.use_orjson then E.orjson_dumps (indentTruthy cfg.indent) cfg.sort_keys db
  else E.json_dumps cfg.indent cfg.sort_keys db

/-- `write` (lines 183-195). -/
def write (E : Ext) (cfg : Config) (st : Storage) (db : JVal) : Storage :=
  write_dump E cfg st (write_db_dump E cfg db)

/-- `s.replace("\n", "\n" + ins)` for the single-character pattern. -/
def replace_newlines (ins : List Char) : List Char → List Char
  | [] => []
  | c :: rest =>
      if c = '\n' then '\n' :: (ins ++ replace_newlines ins rest)
      else c :: replace_newlines ins rest

/-- The serialisation `partial_write` computes for the handle's value
(lines 202-208), before re-indentation.  The `.decode()` of the orjson bytes
is invisible because bytes and text coincide. -/
def partial_write_serialized (E : Ext) (cfg : Config) (pf : PartialFileHandle) :
    List Char :=
  if cfg.use_orjson then
    E.orjson_dumps (indentTruthy cfg.indent) cfg.sort_keys pf.partial_dict.value
  else E.json_dumps cfg.indent cfg.sort_keys pf.partial_dict.value

/-- The re-indented serialisation (lines 210-211): when `indent_level > 0`
and `indent_with` is nonempty, every newline is followed by `indent_level`
repetitions of `indent_with`. -/
def partial_write_reindented (E : Ext) (cfg : Config) (pf : PartialFileHandle) :
    List Char :=
  if 0 < pf.indent_level ∧ pf.indent_with ≠ [] then
    replace_newlines ((List.replicate pf.indent_level pf.indent_with).flatten)
      (partial_write_serialized E cfg pf)
  else partial_write_serialized E cfg pf

/-- The index entry `partial_write` stores (lines 213-222). -/
def partial_write_entry (E : Ext) (cfg : Config) (pf : PartialFileHandle) :
    IndexEntry :=
  { start_index := pf.partial_dict.pre.length
    end_index := pf.partial_dict.pre.length + (partial_write_reindented E cfg pf).length
    indent_level := pf.indent_level
    indent_with := pf.indent_with
    value_hash := E.sha256 (partial_write_reindented E cfg pf) }

/-- The state after `partial_write`'s call to `write_index_file`
(lines 213-222): the handle's index snapshot with the fresh entry is
persisted; the document files are not yet touched. -/
def partial_write_index_commit (E : Ext) (cfg : Config) (pf : PartialFileHandle)
    (st : Storage) : Storage :=
  { st with
      indexFile :=
        some (idxSet pf.index_data pf.partial_dict.key (partial_write_entry E cfg pf)) }

/-- `dump = f"{prefix}{partial_dump}{suffix}"` (line 224). -/
def partial_write_dump (E : Ext) (cfg : Config) (pf : PartialFileHandle) :
    List Char :=
  pf.partial_dict.pre ++ partial_write_reindented E cfg pf ++ pf.partial_dict.suffix

/-- `partial_write` (lines 198-225): serialise and re-indent the handle's
value, persist the refreshed index entry first, then splice and write the
document. -/
def partial_write (E : Ext) (cfg : Config) (pf : PartialFileHandle)
    (st : Storage) : Storage :=
  write_dump E cfg (partial_write_index_commit E cfg pf st)
    (partial_write_dump E cfg pf)

/-- Replace the decoded value of a handle (the frozen dataclass is rebuilt
with a new value before being consumed). -/
def set_value (pf : PartialFileHandle) (v : JVal) : PartialFileHandle :=
  { pf with partial_dict := { pf.partial_dict with value := v } }

/-- The file of the representation opposite to the configured one. -/
def oppositeOfConfigured (cfg : Config) (st : Storage) : Option (List Char) :=
  if cfg.use_compression then st.jsonFile else st.ddbFile

/-! Concrete instances used to evaluate the theorems on closed inputs. -/

/-- A concrete instantiation of the external collaborators: serialisers with
fixed output, a decoder that wraps the raw slice, an injective stand-in for
sha256, and the identity codec. -/
def extTest : Ext :=
  { orjson_dumps := fun _ _ _ => ['0']
    json_dumps := fun _ _ _ => ['9']
    orjson_loads := fun s => some (.str s)
    sha256 := fun s => 'h' :: s
    compress := fun s => s
    decompress := fun s => s }

/-- Plain-text storage, orjson serialiser, indent 2. -/
def cfgTest : Config :=
  { use_compression := false, use_orjson := true, indent := some 2, sort_keys := false }

/-- The document `{"a": 1}`. -/
def docTest : List Char := ("\x7b\"a\": 1\x7d").data

/-- The document stored plain, with no index file yet. -/
def stTest : Storage := ⟨some docTest, none, none⟩

def keyA : List Char := ['a']

def keyB : List Char := ['b']

/-- The handle a first `partial_read (as_handle := true)` of `"a"` yields. -/
def hTest : PartialFileHandle := scan_handle extTest docTest [] keyA 1 (.str ['1'])

/-- The storage after that first read persisted the fresh index entry. -/
def stTest1 : Storage := scan_store extTest stTest [] docTest keyA 1

/-- A stale index entry for `"a"`: right offsets, wrong hash. -/
def entryStale : IndexEntry := ⟨6, 7, 0, [], ['x']⟩

/-- The document with a stale persisted index entry for `"a"`. -/
def stTestStale : Storage := ⟨some docTest, none, some [(keyA, entryStale)]⟩

end DictDB

namespace DictDB

/-! Helper lemmas shared by the claim theorems. -/

/-- Looking a key up right after storing it yields the stored entry. -/
theorem idxGet_idxSet_self (d : IndexData) (k : List Char) (e : IndexEntry) :
    idxGet (idxSet d k e) k = some e := by
  induction d with
  | nil => simp [idxSet, idxGet]
  | cons kv rest ih =>
      obtain ⟨k', e'⟩ := kv
      by_cases h : k' = k
      · subst h; simp [idxSet, idxGet]
      · simp [idxSet, idxGet, h, ih]

/-- Persisting the index file does not change what `read_file` sees. -/
theorem read_file_scan_store (E : Ext) (st : Storage) (idx : IndexData)
    (data key : List Char) (ki : Nat) :
    read_file E (scan_store E st idx data key ki) = read_file E st := rfl

/-- After the scan path stores its entry, the index file holds the refreshed
mapping. -/
theorem read_index_file_scan_store (E : Ext) (st : Storage) (idx : IndexData)
    (data key : List Char) (ki : Nat) :
    read_index_file (scan_store E st idx data key ki)
      = idxSet idx key (scan_entry E data key ki) := rfl

/-- `write_dump` touches only the two document files. -/
theorem write_dump_indexFile (E : Ext) (cfg : Config) (st : Storage) (d : List Char) :
    (write_dump E cfg st d).indexFile = st.indexFile := by
  unfold write_dump; split <;> rfl

/-- Reading back what `write_dump` wrote returns the dump, for a codec whose
decompression inverts its compression. -/
theorem read_file_write_dump (E : Ext) (cfg : Config) (st : Storage) (d : List Char)
    (hcodec : ∀ s, E.decompress (E.compress s) = s) :
    read_file E (write_dump E cfg st d) = .ok d := by
  unfold write_dump
  split
  · show read_file E ⟨none, some (E.compress d), st.indexFile⟩ = .ok d
    simp [read_file, hcodec]
  · rfl

/-- Slicing a spliced document at the middle part's span returns the middle
part. -/
theorem slice_middle (p m s : List Char) :
    slice (p ++ m ++ s) p.length (p.length + m.length) = m := by
  simp [slice]

/-- Inversion of a successful `partial_read_scan`: the key was located, the
refreshed entry was persisted, and the result decodes the located slice. -/
theorem partial_read_scan_ok_inv {E : Ext} {st : Storage} {data : List Char}
    {idx : IndexData} {key : List Char} {ah : Bool} {r : PRResult} {st1 : Storage}
    (h : partial_read_scan E st data idx key ah = (.ok r, st1)) :
    ∃ ki pv, find_outermost_json_key_index data (jsonKeyOf key) = some ki ∧
      E.orjson_loads (scan_slice data key ki) = some pv ∧
      st1 = scan_store E st idx data key ki ∧
      r = (if ah then .handle (scan_handle E data idx key ki pv) else .val pv) := by
  unfold partial_read_scan at h
  split at h
  · exact absurd h (by simp)
  next ki hf =>
    split at h
    next => exact absurd h (by simp)
    next pv hl =>
      refine ⟨ki, pv, hf, hl, ?_⟩
      cases ah <;> simp_all

/-- Inversion of a successful `partial_read`: either the cache-hit branch ran
and the state is untouched, or the cache gave no valid entry and the full
scan produced the result. -/
theorem partial_read_ok_inv {E : Ext} {st : Storage} {key : List Char} {ah : Bool}
    {r : PRResult} {st1 : Storage}
    (h : partial_read E st key ah = (.ok r, st1)) :
    ∃ data, read_file E st = .ok data ∧
      ((∃ e pv,
          idxGet (read_index_file st) key = some e ∧
          e.value_hash = E.sha256 (slice data e.start_index e.end_index) ∧
          E.orjson_loads (slice data e.start_index e.end_index) = some pv ∧
          st1 = st ∧
          r = (if ah then .handle (hit_handle data (read_index_file st) key e pv) else .val pv))
       ∨ (takes_cache_hit_path E data (read_index_file st) key = false ∧
          partial_read_scan E st data (read_index_file st) key ah = (.ok r, st1))) := by
  unfold partial_read at h
  split at h
  · exact absurd h (by simp)
  next data hd =>
    refine ⟨data, hd, ?_⟩
    split at h
    next e hg =>
      split at h
      next hh =>
        split at h
        next => exact absurd h (by simp)
        next pv hl =>
          cases ah with
          | false =>
              rw [if_pos (by decide)] at h
              simp only [Prod.mk.injEq, Except.ok.injEq] at h
              exact Or.inl ⟨e, pv, hg, hh, hl, h.2.symm, by simp [h.1.symm]⟩
          | true =>
              rw [if_neg (by decide)] at h
              simp only [Prod.mk.injEq, Except.ok.injEq] at h
              exact Or.inl ⟨e, pv, hg, hh, hl, h.2.symm, by simp [h.1.symm]⟩
      next hh =>
        exact Or.inr ⟨by simp [takes_cache_hit_path, hg, hh], h⟩
    next hg =>
      exact Or.inr ⟨by simp [takes_cache_hit_path, hg], h⟩

/-- Forward evaluation of the cache-hit branch of `partial_read`. -/
theorem partial_read_hit_eq (E : Ext) (st : Storage) (key data : List Char)
    (e : IndexEntry) (pv : JVal) (ah : Bool)
    (hdata : read_file E st = .ok data)
    (hget : idxGet (read_index_file st) key = some e)
    (hhash : e.value_hash = E.sha256 (slice data e.start_index e.end_index))
    (hload : E.orjson_loads (slice data e.start_index e.end_index) = some pv) :
    partial_read E st key ah =
      (.ok (if ah then .handle (hit_handle data (read_index_file st) key e pv) else .val pv),
       st) := by
  unfold partial_read
  rw [hdata]
  simp only [hget, if_pos hhash, hload]
  cases ah <;> simp

end DictDB

namespace DictDB

/-! The claim theorems. -/

/-- C1 — Round-trip: reading a key as a handle from a document, replacing the
handle's decoded value with any value `V`, and writing the handle back
produces a document that is the original with the key's located value span
`[a, b)` replaced by the serialised-and-reindented `V`: the handle's prefix
and suffix are the document's bytes outside that span copied verbatim, the
span decodes to the key's original value, and the written document is exactly
`prefix ++ reindented serialisation of V ++ suffix`. -/
theorem c1_partial_roundtrip (E : Ext) (cfg : Config) (st st1 : Storage)
    (key data : List Char) (h : PartialFileHandle) (V : JVal)
    (hcodec : ∀ s, E.decompress (E.compress s) = s)
    (hdata : read_file E st = .ok data)
    (hread : partial_read E st key true = (.ok (.handle h), st1)) :
    ∃ a b, h.partial_dict.pre = data.take a ∧ h.partial_dict.suffix = data.drop b ∧
      E.orjson_loads (slice data a b) = some h.partial_dict.value ∧
      read_file E (partial_write E cfg (set_value h V) st1) =
        .ok (data.take a ++ partial_write_reindented E cfg (set_value h V)
          ++ data.drop b) := by
  obtain ⟨data0, hdata0, hcase⟩ := partial_read_ok_inv hread
  rw [hdata0] at hdata
  injection hdata with hde
  subst hde
  rcases hcase with ⟨e, pv, hget, hhash, hload, hst, hr⟩ | ⟨hmiss, hscan⟩
  · simp only [if_pos] at hr
    injection hr with hh
    subst hh
    subst hst
    refine ⟨e.start_index, e.end_index, rfl, rfl, hload, ?_⟩
    unfold partial_write
    rw [read_file_write_dump _ _ _ _ hcodec]
    rfl
  · obtain ⟨ki, pv, hfind, hload, hst, hr⟩ := partial_read_scan_ok_inv hscan
    simp only [if_pos] at hr
    injection hr with hh
    subst hh
    subst hst
    refine ⟨scan_value_start data0 key ki, scan_value_end data0 key ki, rfl, rfl,
      hload, ?_⟩
    unfold partial_write
    rw [read_file_write_dump _ _ _ _ hcodec]
    rfl

/-- C1 witness: the round trip evaluated on the document `{"a": 1}`, key
`"a"`, new value `7`. -/
theorem c1_partial_roundtrip_witness :
    (∀ s, extTest.decompress (extTest.compress s) = s)
    ∧ read_file extTest stTest = .ok docTest
    ∧ partial_read extTest stTest keyA true = (.ok (.handle hTest), stTest1)
    ∧ ∃ a b, hTest.partial_dict.pre = docTest.take a
        ∧ hTest.partial_dict.suffix = docTest.drop b
        ∧ extTest.orjson_loads (slice docTest a b) = some hTest.partial_dict.value
        ∧ read_file extTest (partial_write extTest cfgTest (set_value hTest (.num 7)) stTest1)
          = .ok (docTest.take a
              ++ partial_write_reindented extTest cfgTest (set_value hTest (.num 7))
              ++ docTest.drop b) :=
  ⟨fun _ => rfl, rfl, rfl,
    c1_partial_roundtrip extTest cfgTest stTest stTest1 keyA docTest hTest (.num 7)
      (fun _ => rfl) rfl rfl⟩

/-- C2 — Staleness detection: when the index holds an entry for the key whose
stored hash differs from the hash of the current document text at the entry's
offsets, `partial_read` does not use the cached slice but falls back to the
full scan; when the scan locates the key it persists a refreshed index entry
(the scan store), and when the freshly located slice decodes it returns that
current value — the hash mismatch never surfaces as an error. -/
theorem c2_staleness_fallback (E : Ext) (st : Storage) (key data : List Char)
    (e : IndexEntry)
    (hdata : read_file E st = .ok data)
    (hidx : idxGet (read_index_file st) key = some e)
    (hmis : ¬ e.value_hash = E.sha256 (slice data e.start_index e.end_index)) :
    (∀ ah, partial_read E st key ah = partial_read_scan E st data (read_index_file st) key ah)
    ∧ (∀ ki, find_outermost_json_key_index data (jsonKeyOf key) = some ki →
        (partial_read_scan E st data (read_index_file st) key false).2
          = scan_store E st (read_index_file st) data key ki
        ∧ ∀ v, E.orjson_loads (scan_slice data key ki) = some v →
            (partial_read_scan E st data (read_index_file st) key false).1
              = .ok (.val v)) := by
  constructor
  · intro ah
    unfold partial_read
    rw [hdata]
    simp only [hidx, if_neg hmis]
  · intro ki hki
    constructor
    · unfold partial_read_scan
      simp only [hki]
      cases hl : E.orjson_loads (scan_slice data key ki) <;> simp [hl]
    · intro v hv
      unfold partial_read_scan
      simp only [hki, hv]
      rfl

/-- C2 witness: a stale entry (right offsets, wrong hash) for `"a"` in
`{"a": 1}` forces the fallback to the full scan. -/
theorem c2_staleness_fallback_witness :
    read_file extTest stTestStale = .ok docTest
    ∧ idxGet (read_index_file stTestStale) keyA = some entryStale
    ∧ ¬ entryStale.value_hash
        = extTest.sha256 (slice docTest entryStale.start_index entryStale.end_index)
    ∧ partial_read extTest stTestStale keyA false
        = partial_read_scan extTest stTestStale docTest (read_index_file stTestStale)
            keyA false :=
  ⟨rfl, rfl, by decide,
    (c2_staleness_fallback extTest stTestStale keyA docTest entryStale rfl rfl
      (by decide)).1 false⟩

/-- C3 — Mutual exclusivity of representations: after `write_dump`, after
`write` and after `partial_write`, exactly one of the plain and compressed
files exists, and the file of the representation opposite to the configured
one is gone. -/
theorem c3_mutual_exclusivity (E : Ext) (cfg : Config) (st : Storage)
    (d : List Char) (v : JVal) (pf : PartialFileHandle) :
    ((write_dump E cfg st d).jsonFile.isSome = !(write_dump E cfg st d).ddbFile.isSome)
    ∧ oppositeOfConfigured cfg (write_dump E cfg st d) = none
    ∧ ((write E cfg st v).jsonFile.isSome = !(write E cfg st v).ddbFile.isSome)
    ∧ oppositeOfConfigured cfg (write E cfg st v) = none
    ∧ ((partial_write E cfg pf st).jsonFile.isSome
        = !(partial_write E cfg pf st).ddbFile.isSome)
    ∧ oppositeOfConfigured cfg (partial_write E cfg pf st) = none := by
  obtain ⟨c, o, i, s⟩ := cfg
  cases c <;> simp [write, partial_write, write_dump, oppositeOfConfigured]

/-- C4 — Key-not-found atomicity: when the key has no valid (hash-matching)
index entry and the full scan does not locate the `"key":` token,
`partial_read` fails with the key-not-found error and returns the storage
unchanged — in particular the persisted index mapping is not modified. -/
theorem c4_key_not_found_atomic (E : Ext) (st : Storage) (key data : List Char)
    (ah : Bool)
    (hdata : read_file E st = .ok data)
    (hnovalid : takes_cache_hit_path E data (read_index_file st) key = false)
    (hnotfound : find_outermost_json_key_index data (jsonKeyOf key) = none) :
    partial_read E st key ah = (.error .keyNotFound, st) := by
  unfold partial_read
  rw [hdata]
  cases hg : idxGet (read_index_file st) key with
  | none =>
      simp only [hg]
      unfold partial_read_scan
      simp [hnotfound]
  | some e =>
      have hm : ¬ e.value_hash = E.sha256 (slice data e.start_index e.end_index) := by
        intro hcontra
        rw [takes_cache_hit_path, hg] at hnovalid
        simp [hcontra] at hnovalid
      simp only [hg, if_neg hm]
      unfold partial_read_scan
      simp [hnotfound]

/-- C4 witness: reading the missing key `"b"` from `{"a": 1}` fails with the
key-not-found error and leaves the storage untouched. -/
theorem c4_key_not_found_atomic_witness :
    read_file extTest stTest = .ok docTest
    ∧ takes_cache_hit_path extTest docTest (read_index_file stTest) keyB = false
    ∧ find_outermost_json_key_index docTest (jsonKeyOf keyB) = none
    ∧ partial_read extTest stTest keyB false = (.error .keyNotFound, stTest) :=
  ⟨rfl, rfl, rfl, c4_key_not_found_atomic extTest stTest keyB docTest false rfl rfl rfl⟩

/-- C5 — `read_file` error characterisation: it fails with the
inconsistent-storage error exactly when both representations exist, with the
not-found error exactly when neither exists, and otherwise returns the
document text — decompressing it when the compressed representation is the
one that exists. -/
theorem c5_read_file_characterization (E : Ext) (st : Storage) :
    read_file E st =
      if st.jsonFile.isSome && st.ddbFile.isSome then .error .inconsistent
      else if !st.jsonFile.isSome && !st.ddbFile.isSome then .error .notFound
      else if st.jsonFile.isSome then .ok (st.jsonFile.getD [])
      else .ok (E.decompress (st.ddbFile.getD [])) := by
  obtain ⟨j, d, x⟩ := st
  cases j <;> cases d <;> rfl

/-- C6 — Idempotence of reads: when a `partial_read` of a key succeeds with a
decoded value, reading the same key again with no intervening write returns
the identical value and the identical storage (so the persisted hash for the
key is unchanged), and that second call takes the cache-hit branch. -/
theorem c6_idempotent_reads (E : Ext) (st st1 : Storage) (key : List Char) (v : JVal)
    (h1 : partial_read E st key false = (.ok (.val v), st1)) :
    partial_read E st1 key false = (.ok (.val v), st1)
    ∧ cache_hit_on E st1 key = true := by
  obtain ⟨data, hdata, hcase⟩ := partial_read_ok_inv h1
  rcases hcase with ⟨e, pv, hget, hhash, hload, hst, hr⟩ | ⟨hmiss, hscan⟩
  · subst hst
    simp only [Bool.false_eq_true, if_false, PRResult.val.injEq] at hr
    subst hr
    refine ⟨h1, ?_⟩
    simp [cache_hit_on, hdata, takes_cache_hit_path, hget, hhash]
  · obtain ⟨ki, pv, hfind, hload, hst, hr⟩ := partial_read_scan_ok_inv hscan
    simp only [Bool.false_eq_true, if_false, PRResult.val.injEq] at hr
    subst hr
    subst hst
    have hd2 : read_file E (scan_store E st (read_index_file st) data key ki)
        = .ok data := by
      rw [read_file_scan_store, hdata]
    have hg2 : idxGet (read_index_file (scan_store E st (read_index_file st) data key ki))
        key = some (scan_entry E data key ki) := by
      rw [read_index_file_scan_store]; exact idxGet_idxSet_self ..
    have hh2 : (scan_entry E data key ki).value_hash
        = E.sha256 (slice data (scan_entry E data key ki).start_index
            (scan_entry E data key ki).end_index) := rfl
    have hl2 : E.orjson_loads (slice data (scan_entry E data key ki).start_index
        (scan_entry E data key ki).end_index) = some v := hload
    refine ⟨?_, ?_⟩
    · rw [partial_read_hit_eq E _ key data _ v false hd2 hg2 hh2 hl2]
      simp
    · simp [cache_hit_on, hd2, takes_cache_hit_path, hg2]
      exact hh2

/-- C6 witness: reading `"a"` from `{"a": 1}` twice — the second read returns
the same value, leaves the storage unchanged and hits the cache. -/
theorem c6_idempotent_reads_witness :
    partial_read extTest stTest keyA false = (.ok (.val (.str ['1'])), stTest1)
    ∧ (partial_read extTest stTest1 keyA false = (.ok (.val (.str ['1'])), stTest1)
       ∧ cache_hit_on extTest stTest1 keyA = true) :=
  ⟨rfl, c6_idempotent_reads extTest stTest stTest1 keyA (.str ['1']) rfl⟩

/-- C7 — Index entry written by `partial_write`: the entry stored for the
handle's key has `start_index` the length of the handle's prefix, `end_index`
that length plus the length of the serialised-and-reindented value, the
handle's original indentation metadata, and the hash of the newly serialised
value bytes. -/
theorem c7_partial_write_index_entry (E : Ext) (cfg : Config)
    (pf : PartialFileHandle) (st : Storage) :
    idxGet (read_index_file (partial_write E cfg pf st)) pf.partial_dict.key
      = some { start_index := pf.partial_dict.pre.length
               end_index := pf.partial_dict.pre.length
                 + (partial_write_reindented E cfg pf).length
               indent_level := pf.indent_level
               indent_with := pf.indent_with
               value_hash := E.sha256 (partial_write_reindented E cfg pf) } := by
  have hidx : read_index_file (partial_write E cfg pf st)
      = idxSet pf.index_data pf.partial_dict.key (partial_write_entry E cfg pf) := by
    unfold read_index_file partial_write
    rw [write_dump_indexFile]
    rfl
  rw [hidx, idxGet_idxSet_self]
  rfl

/-- C8 — Serialiser equivalence: for every value and every configuration, the
serialisation `partial_write` computes for the handle's value before
re-indentation is the very serialisation the full-document `write` path
computes for that value. -/
theorem c8_serializer_equivalence (E : Ext) (cfg : Config) (pf : PartialFileHandle) :
    partial_write_serialized E cfg pf = write_db_dump E cfg pf.partial_dict.value := rfl

/-- C9 counterexample: at the point of `partial_write` where the index file
has just been committed and the document write has not yet begun — the state
the call is left in when an I/O failure aborts the subsequent document write
— the persisted index mapping already differs from its pre-call value while
the document files are unchanged.  So an I/O failure during the document
write does not leave "neither the document nor the persisted Index Cache
changed", refuting the claim as stated. -/
theorem c9_no_partial_failure_counterexample :
    (partial_write_index_commit extTest cfgTest hTest stTest).jsonFile = stTest.jsonFile
    ∧ (partial_write_index_commit extTest cfgTest hTest stTest).ddbFile = stTest.ddbFile
    ∧ ¬ (partial_write_index_commit extTest cfgTest hTest stTest).indexFile
        = stTest.indexFile := by
  refine ⟨rfl, rfl, ?_⟩
  decide

/-- C9 amended: `partial_write` persists the refreshed index entry first and
writes the document second; at the intermediate commit point the document
files are still untouched, and on completion the index holds the refreshed
mapping.  An I/O failure during the document write therefore leaves the index
already updated (a partial state the hash check tolerates on the next read);
only a failure before the index write leaves both unchanged. -/
theorem c9_index_before_document (E : Ext) (cfg : Config) (pf : PartialFileHandle)
    (st : Storage) :
    partial_write E cfg pf st
      = write_dump E cfg (partial_write_index_commit E cfg pf st)
          (partial_write_dump E cfg pf)
    ∧ (partial_write_index_commit E cfg pf st).jsonFile = st.jsonFile
    ∧ (partial_write_index_commit E cfg pf st).ddbFile = st.ddbFile
    ∧ read_index_file (partial_write E cfg pf st)
      = idxSet pf.index_data pf.partial_dict.key (partial_write_entry E cfg pf) := by
  refine ⟨rfl, rfl, rfl, ?_⟩
  unfold read_index_file partial_write
  rw [write_dump_indexFile]
  rfl

/-- C10 — Cache-hash consistency at write time: the entry a successful
`partial_read` leaves for the key, and the entry `partial_write` persists for
the handle's key, carry a `value_hash` equal to the hash of exactly the slice
of the current document text between the entry's offsets; consequently an
immediately following `partial_read` of the same key over the unchanged
document takes the cache-hit branch. -/
theorem c10_cache_hash_consistency (E : Ext)
    (hcodec : ∀ s, E.decompress (E.compress s) = s) :
    (∀ st key ah r st1 data e,
        partial_read E st key ah = (.ok r, st1) →
        read_file E st1 = .ok data →
        idxGet (read_index_file st1) key = some e →
        e.value_hash = E.sha256 (slice data e.start_index e.end_index)
          ∧ cache_hit_on E st1 key = true)
    ∧ (∀ cfg pf st data e,
        read_file E (partial_write E cfg pf st) = .ok data →
        idxGet (read_index_file (partial_write E cfg pf st)) pf.partial_dict.key
          = some e →
        e.value_hash = E.sha256 (slice data e.start_index e.end_index)
          ∧ cache_hit_on E (partial_write E cfg pf st) pf.partial_dict.key = true) := by
  constructor
  · intro st key ah r st1 data e hpr hdata1 hget1
    obtain ⟨data0, hdata0, hcase⟩ := partial_read_ok_inv hpr
    rcases hcase with ⟨e0, pv, hget0, hhash0, hload0, hst, hr⟩ | ⟨hmiss, hscan⟩
    · subst hst
      rw [hdata0] at hdata1
      injection hdata1 with hde; subst hde
      rw [hget0] at hget1
      injection hget1 with hee; subst hee
      refine ⟨hhash0, ?_⟩
      simp [cache_hit_on, hdata0, takes_cache_hit_path, hget0]
      exact hhash0
    · obtain ⟨ki, pv, hfind, hload, hst, hr⟩ := partial_read_scan_ok_inv hscan
      subst hst
      rw [read_file_scan_store, hdata0] at hdata1
      injection hdata1 with hde; subst hde
      rw [read_index_file_scan_store, idxGet_idxSet_self] at hget1
      injection hget1 with hee; subst hee
      refine ⟨rfl, ?_⟩
      simp [cache_hit_on, read_file_scan_store, hdata0, takes_cache_hit_path,
        read_index_file_scan_store, idxGet_idxSet_self]
      rfl
  · intro cfg pf st data e hdata1 hget1
    have hidx : read_index_file (partial_write E cfg pf st)
        = idxSet pf.index_data pf.partial_dict.key (partial_write_entry E cfg pf) := by
      unfold read_index_file partial_write
      rw [write_dump_indexFile]
      rfl
    have hdoc : read_file E (partial_write E cfg pf st)
        = .ok (partial_write_dump E cfg pf) := by
      unfold partial_write
      exact read_file_write_dump _ _ _ _ hcodec
    rw [hidx, idxGet_idxSet_self] at hget1
    injection hget1 with hee; subst hee
    rw [hdoc] at hdata1
    injection hdata1 with hde; subst hde
    have hsl : slice (partial_write_dump E cfg pf)
        (partial_write_entry E cfg pf).start_index
        (partial_write_entry E cfg pf).end_index
        = partial_write_reindented E cfg pf := by
      show slice (pf.partial_dict.pre ++ partial_write_reindented E cfg pf
        ++ pf.partial_dict.suffix) pf.partial_dict.pre.length
        (pf.partial_dict.pre.length + (partial_write_reindented E cfg pf).length)
        = partial_write_reindented E cfg pf
      exact slice_middle _ _ _
    refine ⟨?_, ?_⟩
    · rw [hsl]
      rfl
    · simp [cache_hit_on, hdoc, takes_cache_hit_path, hidx, idxGet_idxSet_self, hsl]
      rfl

/-- C10 witness: the entry left by the first read of `"a"` from `{"a": 1}`
hashes exactly the current slice at its offsets, and the next read is a cache
hit. -/
theorem c10_cache_hash_consistency_witness :
    (∀ s, extTest.decompress (extTest.compress s) = s)
    ∧ partial_read extTest stTest keyA false = (.ok (.val (.str ['1'])), stTest1)
    ∧ read_file extTest stTest1 = .ok docTest
    ∧ idxGet (read_index_file stTest1) keyA = some (scan_entry extTest docTest keyA 1)
    ∧ ((scan_entry extTest docTest keyA 1).value_hash
        = extTest.sha256 (slice docTest (scan_entry extTest docTest keyA 1).start_index
            (scan_entry extTest docTest keyA 1).end_index)
       ∧ cache_hit_on extTest stTest1 keyA = true) :=
  ⟨fun _ => rfl, rfl, rfl, rfl,
    (c10_cache_hash_consistency extTest (fun _ => rfl)).1 stTest keyA false
      (.val (.str ['1'])) stTest1 docTest (scan_entry extTest docTest keyA 1) rfl rfl rfl⟩

end DictDB
